import Mathlib

/-!
Shallow embedding of `src/megaverse.py` (Crossmint megaverse client):
the request dispatcher `_handle_requests`, the rate limiter `_rate_time`,
the create/delete operations, the fixed cross generator
`create_polyanet_cross`, and the goal-map builder `create_crossmint_logo`.
-/

namespace Megaverse

/-- JSON values, as decoded by `response.json()` in the Python client. -/
inductive JValue where
  | null : JValue
  | jbool (b : Bool) : JValue
  | num (n : Int) : JValue
  | str (s : String) : JValue
  | arr (elems : List JValue) : JValue
  | obj (fields : List (String × JValue)) : JValue

/-- Values appearing in request payloads: strings and Python ints. -/
inductive PVal where
  | s (v : String)
  | n (v : Int)
deriving DecidableEq

/-- One dispatched HTTP request: the method, the endpoint appended to the
base url, and the form payload sent as `data=`. -/
structure Request where
  method : String
  endpoint : String
  payload : List (String × PVal)
deriving DecidableEq

/-- Python dict insertion `d[k] = v` over insertion-ordered pairs: an existing
key keeps its position and gets the new value, a new key is appended. This is
the semantics of each successive entry of a dict display such as
`{"candidateId": self.candidate_id, **kwards}`. -/
def dictInsert (d : List (String × PVal)) (k : String) (v : PVal) :
    List (String × PVal) :=
  if d.any (fun p => p.1 == k) then
    d.map (fun p => if p.1 == k then (k, v) else p)
  else d ++ [(k, v)]

/-- The body built by `_handle_requests`:
`payload = {"candidateId": self.candidate_id, **kwards}`. Later entries of a
Python dict display override earlier ones, so a caller-supplied `candidateId`
key replaces the configured one. -/
def buildPayload (cid : String) (fields : List (String × PVal)) :
    List (String × PVal) :=
  fields.foldl (fun d kv => dictInsert d kv.1 kv.2) [("candidateId", PVal.s cid)]

/-- Outcome of one transport invocation `requests.<method>(url, data=payload)`:
a response with an HTTP status and (if decodable) a JSON body, or one of the
`requests` exception classes the source catches. A `body` of `none` stands for
a response whose text is not valid JSON, so `response.json()` raises
`requests.exceptions.JSONDecodeError` (a `RequestException`). -/
inductive SendOutcome where
  | response (status : Nat) (body : Option JValue)
  | connError (msg : String)
  | timeoutErr (msg : String)
  | otherError (msg : String)

/-- Python exceptions that can escape the modelled functions. -/
inductive PyErr where
  | attributeError (name : String)
  | keyError (key : String)
  | typeError (msg : String)
  | indexError
deriving DecidableEq

/-- Function-valued attributes of the `requests` module that take
`(url, **kwargs)`; `getattr(requests, method)` succeeds exactly on existing
attributes, and the program only ever passes "get", "post" and "delete". -/
def requestsMethods : List String :=
  ["get", "post", "put", "delete", "head", "options", "patch"]

/-- `_handle_requests(method, endpoint, **kwards)`: throttles (timing modelled
separately by `throttle`), builds `buildPayload`, calls
`getattr(requests, method)(url, data=payload)` and classifies the outcome.
`raise_for_status` raises `HTTPError` on a status of 400 or more; every
`requests` exception is caught and logged, and the function falls through
returning Python `None` (JSON `null` in a successful body also decodes to
`None`). An unknown `method` makes `getattr(requests, method)` raise an
uncaught `AttributeError` before any transport call. -/
def handleRequests (out : SendOutcome) (cid method endpoint : String)
    (fields : List (String × PVal)) : Except PyErr (Option JValue) :=
  if method ∈ requestsMethods then
    match out with
    | .response status body =>
      if 400 ≤ status then .ok none
      else
        match body with
        | some JValue.null => .ok none
        | some v => .ok (some v)
        | none => .ok none
    | .connError _ => .ok none
    | .timeoutErr _ => .ok none
    | .otherError _ => .ok none
  else .error (.attributeError method)

/-- The value `_handle_requests` hands back to its caller for each transport
outcome (never an exception, for a real method): faults become `none`,
a non-error response becomes its decoded JSON body. -/
def dispatchResult : SendOutcome → Option JValue
  | .response status body =>
    if 400 ≤ status then none
    else
      match body with
      | some JValue.null => none
      | some v => some v
      | none => none
  | .connError _ => none
  | .timeoutErr _ => none
  | .otherError _ => none

/-- The request issued by `create_object(object_type, row, column, **kwargs)`:
a POST to the object endpoint with body
`{candidateId, row, column, **kwargs}`. -/
def createObjectRequest (cid objectType : String) (row column : Int)
    (extra : List (String × PVal)) : Request :=
  { method := "post", endpoint := objectType,
    payload := buildPayload cid
      ([("row", PVal.n row), ("column", PVal.n column)] ++ extra) }

/-- `create_object` discards the dispatcher's return value and just logs, so
its result only records whether an exception escaped the dispatcher. -/
def createObjectResult (out : SendOutcome) (cid objectType : String)
    (row column : Int) (extra : List (String × PVal)) : Except PyErr Unit :=
  match handleRequests out cid "post" objectType
      ([("row", PVal.n row), ("column", PVal.n column)] ++ extra) with
  | .ok _ => .ok ()
  | .error e => .error e

/-- Member names of the `SoloonColor` enum. -/
def soloonColorNames : List String := ["BLUE", "RED", "PURPLE", "WHITE"]

/-- `SoloonColor.<NAME>.value` for member names (defaulting elsewhere; the
builder only reads it after a successful member check). -/
def soloonColorValue : String → String
  | "BLUE" => "blue"
  | "RED" => "red"
  | "PURPLE" => "purple"
  | "WHITE" => "white"
  | _ => ""

/-- Member names of the `ComethDirection` enum. -/
def comethDirectionNames : List String := ["UP", "DOWN", "RIGHT", "LEFT"]

/-- `ComethDirection.<NAME>.value` for member names. -/
def comethDirectionValue : String → String
  | "UP" => "up"
  | "DOWN" => "down"
  | "RIGHT" => "right"
  | "LEFT" => "left"
  | _ => ""

/-- Request of `create_polyanet(i, j)` → `create_object("polyanets", i, j)`. -/
def polyanetRequest (cid : String) (i j : Nat) : Request :=
  createObjectRequest cid "polyanets" i j []

/-- Request of `create_soloon(i, j, color)` with a color value string, as the
builder passes `getattr(SoloonColor, name).value`. -/
def soloonRequest (cid : String) (i j : Nat) (colorValue : String) : Request :=
  createObjectRequest cid "soloons" i j [("color", PVal.s colorValue)]

/-- Request of `create_cometh(i, j, direction)` with a direction value string. -/
def comethRequest (cid : String) (i j : Nat) (directionValue : String) :
    Request :=
  createObjectRequest cid "comeths" i j [("direction", PVal.s directionValue)]

/-- `create_polyanet_cross`: for `i in range(11)`, at `i == 5` one polyanet at
`(i, i)`; for `2 <= i <= 8` (other than 5) polyanets at `(i, i)` and
`(i, 10 - i)`; nothing for the remaining rows. The list records the dispatched
requests in program order. -/
def createPolyanetCross (cid : String) : List Request :=
  ((List.range 11).map (fun i =>
    if i = 5 then [polyanetRequest cid i i]
    else if 2 ≤ i ∧ i ≤ 8 then
      [polyanetRequest cid i i, polyanetRequest cid i (10 - i)]
    else [])).flatten

/-- Splitting a character list at every occurrence of `c`, keeping empty
groups: the semantics of Python `str.split(sep)` for a one-character `sep`. -/
def splitOnChar (c : Char) : List Char → List (List Char)
  | [] => [[]]
  | x :: xs =>
    match splitOnChar c xs with
    | [] => [[]]
    | g :: gs => if x = c then [] :: g :: gs else (x :: g) :: gs

/-- Python `label.split("_")` (always a non-empty list; `"".split("_")`
is `[""]`). -/
def pySplit (label : String) : List String :=
  (splitOnChar '_' label.toList).map (fun cs => String.mk cs)

/-- How one loop iteration of `create_crossmint_logo` classifies a label:
`"SPACE"` and `"POLYANET"` are checked first; otherwise
`object_name.split("_")[1]` picks the branch — `"COMETH"` selects the
direction branch, anything else the color branch — and
`getattr(<Enum>, attr).value` succeeds exactly on the member names, an
unknown name raising the caught `AttributeError` (log + `return`).
A label with fewer than two `_`-separated parts raises an uncaught
`IndexError` at `split("_")[1]`. -/
inductive LabelClass where
  | space
  | polyanet
  | cometh (name : String)
  | soloon (name : String)
  | badAttribute (name : String)
  | noSecondPart
deriving DecidableEq

/-- The attribute segment `object_name.split("_")[0]` of a label. -/
def attrName (label : String) : String :=
  (pySplit label).headD ""

/-- Classification of one cell label, following the source's branch order. -/
def classifyLabel (label : String) : LabelClass :=
  if label = "SPACE" then .space
  else if label = "POLYANET" then .polyanet
  else
    match (pySplit label)[1]? with
    | none => .noSecondPart
    | some second =>
      if second = "COMETH" then
        if attrName label ∈ comethDirectionNames then .cometh (attrName label)
        else .badAttribute (attrName label)
      else
        if attrName label ∈ soloonColorNames then .soloon (attrName label)
        else .badAttribute (attrName label)

/-- Whether the builder handles a label without aborting or raising. -/
def goodLabel (label : String) : Bool :=
  match classifyLabel label with
  | .badAttribute _ => false
  | .noSecondPart => false
  | _ => true

/-- Whether a label hits the caught `AttributeError` (unrecognized color or
direction name), which logs and aborts the whole build. -/
def isBadAttribute (label : String) : Bool :=
  match classifyLabel label with
  | .badAttribute _ => true
  | _ => false

/-- Effect of one loop-body iteration of `create_crossmint_logo` on the cell
at `(i, j)`: skip, dispatch one request, abort the build (caught
`AttributeError`), or raise. A non-string cell fails the two string
comparisons and then raises `AttributeError` at `.split` — uncaught, since
the `try` only guards the enum access. -/
inductive CellStep where
  | skip
  | emit (r : Request)
  | abortBuild
  | raiseExc (e : PyErr)

/-- One builder iteration on the value found at cell `(i, j)`. -/
def processCell (cid : String) (i j : Nat) (cell : JValue) : CellStep :=
  match cell with
  | .str label =>
    match classifyLabel label with
    | .space => .skip
    | .polyanet => .emit (polyanetRequest cid i j)
    | .cometh d => .emit (comethRequest cid i j (comethDirectionValue d))
    | .soloon c => .emit (soloonRequest cid i j (soloonColorValue c))
    | .badAttribute _ => .abortBuild
    | .noSecondPart => .raiseExc .indexError
  | _ => .raiseExc (.attributeError "split")

/-- Python iteration as used by `enumerate`: lists yield their elements,
strings their one-character substrings, dicts their keys; other values raise
`TypeError`. -/
def pyIter : JValue → Except PyErr (List JValue)
  | .arr xs => .ok xs
  | .str s => .ok (s.toList.map (fun ch => JValue.str (String.mk [ch])))
  | .obj kvs => .ok (kvs.map (fun kv => JValue.str kv.1))
  | _ => .error (.typeError "object is not iterable")

/-- Inner loop of the builder from column `j` of row `i`: the requests it
dispatches, plus whether the caught `AttributeError` aborted the build. -/
def buildCells (cid : String) (i j : Nat) :
    List JValue → Except PyErr (List Request × Bool)
  | [] => .ok ([], false)
  | cell :: rest =>
    match processCell cid i j cell with
    | .skip => buildCells cid i (j + 1) rest
    | .emit r =>
      match buildCells cid i (j + 1) rest with
      | .ok (rs, aborted) => .ok (r :: rs, aborted)
      | .error e => .error e
    | .abortBuild => .ok ([], true)
    | .raiseExc e => .error e

/-- Outer loop of the builder from row `i`: `return` inside the inner loop
leaves both loops, so an aborted row ends the traversal. -/
def buildRows (cid : String) (i : Nat) :
    List JValue → Except PyErr (List Request)
  | [] => .ok []
  | row :: rest =>
    match pyIter row with
    | .error e => .error e
    | .ok cells =>
      match buildCells cid i 0 cells with
      | .error e => .error e
      | .ok (rs, true) => .ok rs
      | .ok (rs, false) =>
        match buildRows cid (i + 1) rest with
        | .ok more => .ok (rs ++ more)
        | .error e => .error e

/-- Python dict lookup `d[k]` over ordered pairs. -/
def pyLookup (kvs : List (String × JValue)) (k : String) : Option JValue :=
  match kvs.find? (fun kv => kv.1 == k) with
  | some kv => some kv.2
  | none => none

/-- The part of `create_crossmint_logo` after the fetch:
`isinstance(response, dict)` guards the loop, so any non-dict response
(including `None`) returns silently with no request; a dict response is
indexed with `response["goal"]` — raising `KeyError` when the key is
absent — and the grid is traversed row-major. -/
def logoFromResponse (cid : String) (response : Option JValue) :
    Except PyErr (List Request) :=
  match response with
  | some (.obj kvs) =>
    match pyLookup kvs "goal" with
    | none => .error (.keyError "goal")
    | some goal =>
      match pyIter goal with
      | .error e => .error e
      | .ok rows => buildRows cid 0 rows
  | _ => .ok []

/-- `create_crossmint_logo`: fetch `goal_map()` (a GET through
`_handle_requests` on `map/<cid>/goal`), then interpret the response. -/
def createCrossmintLogo (out : SendOutcome) (cid : String) :
    Except PyErr (List Request) :=
  match handleRequests out cid "get" ("map/" ++ cid ++ "/goal") [] with
  | .error e => .error e
  | .ok response => logoFromResponse cid response

/-- Encode a grid of string labels as the JSON array of arrays the goal
endpoint returns in its "goal" field. -/
def encodeGrid (grid : List (List String)) : JValue :=
  .arr (grid.map (fun row => .arr (row.map JValue.str)))

/-- The builder's traversal applied directly to a goal grid of labels. -/
def buildGrid (cid : String) (grid : List (List String)) :
    Except PyErr (List Request) :=
  buildRows cid 0 (grid.map (fun row => JValue.arr (row.map JValue.str)))

/-- The requests a run of well-handled labels produces: one per non-SPACE
cell, in cell order (reference characterization used to state theorems about
the builder's output). -/
def rowRequests (cid : String) (i j : Nat) : List String → List Request
  | [] => []
  | label :: rest =>
    (match classifyLabel label with
     | .space => []
     | .polyanet => [polyanetRequest cid i j]
     | .cometh d => [comethRequest cid i j (comethDirectionValue d)]
     | .soloon c => [soloonRequest cid i j (soloonColorValue c)]
     | _ => []) ++ rowRequests cid i (j + 1) rest

/-- Row-major concatenation of `rowRequests` from row `i`. -/
def gridRequests (cid : String) (i : Nat) : List (List String) → List Request
  | [] => []
  | row :: rest => rowRequests cid i 0 row ++ gridRequests cid (i + 1) rest

/-- Number of non-"SPACE" cells of a grid. -/
def nonSpaceCount (grid : List (List String)) : Nat :=
  (grid.map (fun row => (row.filter (fun l => l != "SPACE")).length)).sum

/-- The `(row, column)` pair a request carries in its payload. -/
def reqPos (r : Request) : Option (Int × Int) :=
  match r.payload.lookup "row", r.payload.lookup "column" with
  | some (.n a), some (.n b) => some (a, b)
  | _, _ => none

/-- ASCII upper-casing, used to state case-variation of attribute names. -/
def asciiUpper (s : String) : String :=
  String.mk (s.toList.map (fun ch =>
    if 'a' ≤ ch ∧ ch ≤ 'z' then Char.ofNat (ch.toNat - 32) else ch))

/-- `_rate_time` with an ideal `time.sleep`: given the configured minimum
interval `d`, the stored `last_request_time` and the wall clock `now` on
entry, it sleeps `d - (now - last)` when `now - last < d` and then stores
`datetime.now()` — the returned value is both the time at which `_rate_time`
hands control back (the moment the request is issued) and the new stored
timestamp. The timestamp is thus recorded after the wait but before the
transport call. -/
def throttle (d last now : ℚ) : ℚ :=
  if now - last < d then last + d else now

/-- A synchronous run of dispatched calls. Each call is described by
`(a, r)`: `a` is the caller's processing time between the previous call's
completion and entering `_rate_time`, and `r` is the transport round-trip
time. The result lists each call's `(issue time, completion time)`, where the
issue time is the value `throttle` records. -/
def runCalls (d : ℚ) : ℚ → ℚ → List (ℚ × ℚ) → List (ℚ × ℚ)
  | _, _, [] => []
  | last, t, (a, r) :: rest =>
    (throttle d last (t + a), throttle d last (t + a) + r) ::
      runCalls d (throttle d last (t + a)) (throttle d last (t + a) + r) rest

/-- One call description for the non-idempotence claim: the arguments of one
`create_object` invocation. -/
structure CreateCall where
  objectType : String
  row : Int
  column : Int
  extra : List (String × PVal)
deriving DecidableEq

/-- The requests dispatched by a sequence of `create_object` invocations:
one request per invocation, in order, with no deduplication. -/
def performCreates (cid : String) (calls : List CreateCall) : List Request :=
  calls.map (fun c => createObjectRequest cid c.objectType c.row c.column c.extra)

/-! Helper lemmas. -/

/-- The timestamp `_rate_time` records is at least the previous one plus the
configured interval, whatever the entry time. -/
theorem throttle_ge (d last now : ℚ) : last + d ≤ throttle d last now := by
  unfold throttle
  split
  next h => exact le_refl _
  next h => linarith [not_lt.mp h]

/-- The first call of a run is issued at least `d` after the stored
timestamp. -/
theorem runCalls_head_issue (d last t : ℚ) (calls : List (ℚ × ℚ)) (p : ℚ × ℚ)
    (h : (runCalls d last t calls).head? = some p) : last + d ≤ p.1 := by
  cases calls with
  | nil => simp [runCalls] at h
  | cons c rest =>
    obtain ⟨a, r⟩ := c
    simp only [runCalls, List.head?_cons, Option.some.injEq] at h
    rw [← h]
    exact throttle_ge d last (t + a)

/-- A label classifies as EMPTY exactly when it is the string "SPACE". -/
theorem classifyLabel_space_iff (l : String) :
    classifyLabel l = .space ↔ l = "SPACE" := by
  constructor
  · intro h
    unfold classifyLabel at h
    split at h
    · assumption
    · split at h
      · simp at h
      · split at h
        · simp at h
        · split at h
          · split at h <;> simp at h
          · split at h <;> simp at h
  · intro h
    subst h
    rfl

/-- A direction the builder accepts is a member name of `ComethDirection`. -/
theorem classifyLabel_cometh_mem (s d : String)
    (h : classifyLabel s = .cometh d) : d ∈ comethDirectionNames := by
  unfold classifyLabel at h
  split at h
  · simp at h
  · split at h
    · simp at h
    · split at h
      · simp at h
      · split at h
        · split at h
          · cases h; assumption
          · simp at h
        · split at h <;> simp at h

/-- A color the builder accepts is a member name of `SoloonColor`. -/
theorem classifyLabel_soloon_mem (s c : String)
    (h : classifyLabel s = .soloon c) : c ∈ soloonColorNames := by
  unfold classifyLabel at h
  split at h
  · simp at h
  · split at h
    · simp at h
    · split at h
      · simp at h
      · split at h
        · split at h <;> simp at h
        · split at h
          · cases h; assumption
          · simp at h

/-- Every enum member name is its own ASCII upper-casing. -/
theorem member_names_ascii_upper (a : String)
    (h : a ∈ comethDirectionNames ∨ a ∈ soloonColorNames) :
    asciiUpper a = a := by
  rcases h with h | h
  · simp only [comethDirectionNames, List.mem_cons, List.mem_singleton] at h
    rcases h with rfl | rfl | rfl | rfl | h
    · decide
    · decide
    · decide
    · decide
    · simp at h
  · simp only [soloonColorNames, List.mem_cons, List.mem_singleton] at h
    rcases h with rfl | rfl | rfl | rfl | h
    · decide
    · decide
    · decide
    · decide
    · simp at h

/-- A run of well-handled labels dispatches `rowRequests` and does not
abort. -/
theorem buildCells_good (cid : String) (i : Nat) :
    ∀ (row : List String) (j : Nat), row.all goodLabel = true →
      buildCells cid i j (row.map JValue.str) =
        .ok (rowRequests cid i j row, false) := by
  intro row
  induction row with
  | nil => intro j _; rfl
  | cons l rest ih =>
    intro j hall
    rw [List.all_cons, Bool.and_eq_true] at hall
    obtain ⟨hl, hrest⟩ := hall
    have hstep := ih (j + 1) hrest
    unfold goodLabel at hl
    cases hcl : classifyLabel l with
    | space => simp [buildCells, processCell, rowRequests, hcl, hstep]
    | polyanet => simp [buildCells, processCell, rowRequests, hcl, hstep]
    | cometh d => simp [buildCells, processCell, rowRequests, hcl, hstep]
    | soloon c => simp [buildCells, processCell, rowRequests, hcl, hstep]
    | badAttribute a => rw [hcl] at hl; simp at hl
    | noSecondPart => rw [hcl] at hl; simp at hl

/-- A run of well-handled labels followed by an unrecognized-attribute label
dispatches exactly the requests of the prefix and aborts; nothing after the
bad label is processed. -/
theorem buildCells_abort (cid : String) (i : Nat) (bad : String)
    (hbad : isBadAttribute bad = true) :
    ∀ (rowPre : List String) (j : Nat) (rowPost : List String),
      rowPre.all goodLabel = true →
      buildCells cid i j ((rowPre ++ bad :: rowPost).map JValue.str) =
        .ok (rowRequests cid i j rowPre, true) := by
  intro rowPre
  induction rowPre with
  | nil =>
    intro j rowPost _
    unfold isBadAttribute at hbad
    cases hcl : classifyLabel bad with
    | badAttribute a => simp [buildCells, processCell, rowRequests, hcl]
    | space => rw [hcl] at hbad; simp at hbad
    | polyanet => rw [hcl] at hbad; simp at hbad
    | cometh d => rw [hcl] at hbad; simp at hbad
    | soloon c => rw [hcl] at hbad; simp at hbad
    | noSecondPart => rw [hcl] at hbad; simp at hbad
  | cons l rest ih =>
    intro j rowPost hall
    rw [List.all_cons, Bool.and_eq_true] at hall
    obtain ⟨hl, hrest⟩ := hall
    have hstep := ih (j + 1) rowPost hrest
    simp only [List.map_append, List.map_cons] at hstep
    unfold goodLabel at hl
    cases hcl : classifyLabel l with
    | space => simp [buildCells, processCell, rowRequests, hcl] at hstep ⊢; exact hstep
    | polyanet => simp [buildCells, processCell, rowRequests, hcl, hstep]
    | cometh d => simp [buildCells, processCell, rowRequests, hcl, hstep]
    | soloon c => simp [buildCells, processCell, rowRequests, hcl, hstep]
    | badAttribute a => rw [hcl] at hl; simp at hl
    | noSecondPart => rw [hcl] at hl; simp at hl

/-- A grid of well-handled labels is traversed fully, dispatching
`gridRequests`. -/
theorem buildRows_good (cid : String) :
    ∀ (grid : List (List String)) (i : Nat),
      grid.all (fun r => r.all goodLabel) = true →
      buildRows cid i (grid.map (fun row => JValue.arr (row.map JValue.str))) =
        .ok (gridRequests cid i grid) := by
  intro grid
  induction grid with
  | nil => intro i _; rfl
  | cons row rest ih =>
    intro i hall
    rw [List.all_cons, Bool.and_eq_true] at hall
    obtain ⟨hrow, hrest⟩ := hall
    simp only [List.map_cons, buildRows, pyIter]
    rw [buildCells_good cid i row 0 hrow]
    simp [gridRequests, ih (i + 1) hrest]

/-- `gridRequests` distributes over grid concatenation, shifting the row
index. -/
theorem gridRequests_append (cid : String) :
    ∀ (g1 g2 : List (List String)) (i : Nat),
      gridRequests cid i (g1 ++ g2) =
        gridRequests cid i g1 ++ gridRequests cid (i + g1.length) g2 := by
  intro g1
  induction g1 with
  | nil => intro g2 i; simp [gridRequests]
  | cons row rest ih =>
    intro g2 i
    rw [List.cons_append]
    simp only [gridRequests, List.length_cons]
    rw [ih g2 (i + 1), List.append_assoc]
    have hx : i + 1 + rest.length = i + (rest.length + 1) := by omega
    rw [hx]

/-- A grid whose first unrecognized-attribute label sits after a
well-handled prefix is built exactly up to that label. -/
theorem buildRows_abort (cid : String) (bad : String)
    (hbad : isBadAttribute bad = true) (rowPre rowPost : List String)
    (hrowPre : rowPre.all goodLabel = true) (post : List (List String)) :
    ∀ (pre : List (List String)) (i : Nat),
      pre.all (fun r => r.all goodLabel) = true →
      buildRows cid i ((pre ++ (rowPre ++ bad :: rowPost) :: post).map
          (fun row => JValue.arr (row.map JValue.str))) =
        .ok (gridRequests cid i pre ++ rowRequests cid (i + pre.length) 0 rowPre) := by
  intro pre
  induction pre with
  | nil =>
    intro i _
    simp only [List.nil_append, List.map_cons, buildRows, pyIter]
    rw [buildCells_abort cid i bad hbad rowPre 0 rowPost hrowPre]
    simp [gridRequests]
  | cons row rest ih =>
    intro i hall
    rw [List.all_cons, Bool.and_eq_true] at hall
    obtain ⟨hrow, hrest⟩ := hall
    rw [List.cons_append]
    simp only [List.map_cons, buildRows, pyIter, List.length_cons]
    rw [buildCells_good cid i row 0 hrow]
    rw [ih (i + 1) hrest]
    simp only [gridRequests, List.append_assoc]
    have hx : i + 1 + rest.length = i + (rest.length + 1) := by omega
    rw [hx]

/-- For well-handled labels, one request is dispatched per non-"SPACE"
cell. -/
theorem rowRequests_length (cid : String) (i : Nat) :
    ∀ (row : List String) (j : Nat), row.all goodLabel = true →
      (rowRequests cid i j row).length =
        (row.filter (fun l => l != "SPACE")).length := by
  intro row
  induction row with
  | nil => intro j _; rfl
  | cons l rest ih =>
    intro j hall
    rw [List.all_cons, Bool.and_eq_true] at hall
    obtain ⟨hl, hrest⟩ := hall
    have hstep := ih (j + 1) hrest
    unfold goodLabel at hl
    by_cases hsp : l = "SPACE"
    · subst hsp
      have hcl : classifyLabel "SPACE" = .space := rfl
      simp [rowRequests, hcl, hstep, List.filter_cons]
    · have hne : (l != "SPACE") = true := by
        simp [bne_iff_ne, hsp]
      cases hcl : classifyLabel l with
      | space => exact absurd ((classifyLabel_space_iff l).mp hcl) hsp
      | polyanet => simp [rowRequests, hcl, hstep, List.filter_cons, hne]
      | cometh d => simp [rowRequests, hcl, hstep, List.filter_cons, hne]
      | soloon c => simp [rowRequests, hcl, hstep, List.filter_cons, hne]
      | badAttribute a => rw [hcl] at hl; simp at hl
      | noSecondPart => rw [hcl] at hl; simp at hl

/-- For grids of well-handled labels, the traversal dispatches exactly one
request per non-"SPACE" cell. -/
theorem gridRequests_length (cid : String) :
    ∀ (grid : List (List String)) (i : Nat),
      grid.all (fun r => r.all goodLabel) = true →
      (gridRequests cid i grid).length = nonSpaceCount grid := by
  intro grid
  induction grid with
  | nil => intro i _; rfl
  | cons row rest ih =>
    intro i hall
    rw [List.all_cons, Bool.and_eq_true] at hall
    obtain ⟨hrow, hrest⟩ := hall
    simp [gridRequests, nonSpaceCount, rowRequests_length cid i row 0 hrow,
      ih (i + 1) hrest]

/-- Overriding an existing key rewrites values only: the key sequence of the
dict is unchanged. -/
theorem keys_map_override (d : List (String × PVal)) (k : String) (v : PVal) :
    (d.map (fun p => if p.1 == k then (k, v) else p)).map Prod.fst =
      d.map Prod.fst := by
  induction d with
  | nil => rfl
  | cons p rest ih =>
    simp only [List.map_cons, ih]
    congr 1
    by_cases h : p.1 == k
    · rw [if_pos h]
      exact (eq_of_beq h).symm
    · rw [if_neg h]

/-- Keys present before a dict insertion are present after it. -/
theorem mem_keys_dictInsert (a : String) (d : List (String × PVal))
    (k : String) (v : PVal) (h : a ∈ d.map Prod.fst) :
    a ∈ (dictInsert d k v).map Prod.fst := by
  unfold dictInsert
  split
  · rw [keys_map_override]
    exact h
  · rw [List.map_append]
    exact List.mem_append_left _ h

/-- Keys of the accumulator survive folding dict insertions over it. -/
theorem foldl_dictInsert_keys (a : String) :
    ∀ (fields acc : List (String × PVal)), a ∈ acc.map Prod.fst →
      a ∈ (fields.foldl (fun d kv => dictInsert d kv.1 kv.2) acc).map Prod.fst := by
  intro fields
  induction fields with
  | nil => intro acc h; exact h
  | cons kv rest ih =>
    intro acc h
    exact ih _ (mem_keys_dictInsert a acc kv.1 kv.2 h)

/-- If no inserted field uses the head key, the head binding survives the
whole fold. -/
theorem foldl_dictInsert_head (k0 : String) (v0 : PVal) :
    ∀ (fields rest : List (String × PVal)), k0 ∉ fields.map Prod.fst →
      ∃ rest2,
        fields.foldl (fun d kv => dictInsert d kv.1 kv.2) ((k0, v0) :: rest) =
          (k0, v0) :: rest2 := by
  intro fields
  induction fields with
  | nil => intro rest _; exact ⟨rest, rfl⟩
  | cons kv fs ih =>
    intro rest hk
    simp only [List.map_cons, List.mem_cons] at hk
    push_neg at hk
    obtain ⟨hk1, hk2⟩ := hk
    have hshape : ∃ r2,
        dictInsert ((k0, v0) :: rest) kv.1 kv.2 = (k0, v0) :: r2 := by
      unfold dictInsert
      split
      · refine ⟨rest.map (fun p => if p.1 == kv.1 then (kv.1, kv.2) else p), ?_⟩
        simp only [List.map_cons]
        congr 1
        rw [if_neg (by simp [hk1])]
      · exact ⟨rest ++ [(kv.1, kv.2)], rfl⟩
    obtain ⟨r2, hr2⟩ := hshape
    rw [List.foldl_cons, hr2]
    exact ih r2 hk2

/-- An absent key makes the membership scan of `dictInsert` fail. -/
theorem any_key_eq_false (d : List (String × PVal)) (k : String)
    (h : k ∉ d.map Prod.fst) : (d.any (fun p => p.1 == k)) = false := by
  induction d with
  | nil => rfl
  | cons p rest ih =>
    simp only [List.map_cons, List.mem_cons] at h
    push_neg at h
    obtain ⟨h1, h2⟩ := h
    rw [List.any_cons, ih h2, Bool.or_false]
    exact beq_eq_false_iff_ne.mpr (fun hh => h1 hh.symm)

/-- Inserting a fresh key appends the binding. -/
theorem dictInsert_new_key (d : List (String × PVal)) (k : String) (v : PVal)
    (h : k ∉ d.map Prod.fst) : dictInsert d k v = d ++ [(k, v)] := by
  unfold dictInsert
  rw [any_key_eq_false d k h]
  rfl

/-- Folding insertions of distinct fresh keys appends the fields in order. -/
theorem foldl_dictInsert_disjoint :
    ∀ (fields acc : List (String × PVal)), (fields.map Prod.fst).Nodup →
      (∀ a ∈ fields.map Prod.fst, a ∉ acc.map Prod.fst) →
      fields.foldl (fun d kv => dictInsert d kv.1 kv.2) acc = acc ++ fields := by
  intro fields
  induction fields with
  | nil => intro acc _ _; simp
  | cons kv fs ih =>
    intro acc hnd hdisj
    simp only [List.map_cons, List.nodup_cons] at hnd
    obtain ⟨hk, hnd2⟩ := hnd
    have hkacc : kv.1 ∉ acc.map Prod.fst := hdisj kv.1 (by simp)
    rw [List.foldl_cons, dictInsert_new_key acc kv.1 kv.2 hkacc]
    rw [ih (acc ++ [(kv.1, kv.2)]) hnd2 ?_]
    · simp
    · intro a ha hin
      rw [List.map_append] at hin
      rcases List.mem_append.mp hin with hin | hin
      · exact hdisj a (List.mem_cons_of_mem _ ha) hin
      · simp only [List.map_cons, List.map_nil, List.mem_singleton] at hin
        subst hin
        exact hk ha

/-- When the caller supplies no `candidateId` field, the configured id is
what the payload carries. -/
theorem candidateId_lookup_default (cid : String)
    (fields : List (String × PVal))
    (h : "candidateId" ∉ fields.map Prod.fst) :
    (buildPayload cid fields).lookup "candidateId" = some (PVal.s cid) := by
  unfold buildPayload
  obtain ⟨r2, hr2⟩ := foldl_dictInsert_head "candidateId" (PVal.s cid) fields [] h
  rw [hr2]
  simp [List.lookup]

/-! Claim theorems. -/

/-- C1 counterexample: `create_polyanet_cross` dispatches 13 requests, not
17, and never places a point at position (0, 0) — so it does not place a
point at `(i, i)` for every `i` in 0..10. -/
theorem createPolyanetCross_not_seventeen :
    ¬ (createPolyanetCross "c").length = 17 ∧
    ((createPolyanetCross "c").map reqPos).count (some ((0 : Int), (0 : Int))) = 0 := by
  decide

/-- C1 (amended): `create_polyanet_cross` places exactly 13 distinct points:
`(i, i)` for every `i` in [2, 8], and additionally `(i, 10 − i)` for every
`i` in [2, 8] other than the coinciding `i = 5`; the rows 0, 1, 9 and 10
receive no point. -/
theorem createPolyanetCross_thirteen_distinct (cid : String) :
    createPolyanetCross cid =
      [polyanetRequest cid 2 2, polyanetRequest cid 2 8,
       polyanetRequest cid 3 3, polyanetRequest cid 3 7,
       polyanetRequest cid 4 4, polyanetRequest cid 4 6,
       polyanetRequest cid 5 5,
       polyanetRequest cid 6 6, polyanetRequest cid 6 4,
       polyanetRequest cid 7 7, polyanetRequest cid 7 3,
       polyanetRequest cid 8 8, polyanetRequest cid 8 2] ∧
    (createPolyanetCross cid).map reqPos =
      [some (2, 2), some (2, 8), some (3, 3), some (3, 7), some (4, 4),
       some (4, 6), some (5, 5), some (6, 6), some (6, 4), some (7, 7),
       some (7, 3), some (8, 8), some (8, 2)] ∧
    List.Nodup [((2 : Int), (2 : Int)), (2, 8), (3, 3), (3, 7), (4, 4),
      (4, 6), (5, 5), (6, 6), (6, 4), (7, 7), (7, 3), (8, 8), (8, 2)] :=
  ⟨rfl, rfl, by decide⟩

/-- C2: on the goal grid `[["SPACE","POLYANET"],["RED_SOLOON","UP_COMETH"]]`
the builder issues exactly `createPoint(0,1)`, `createColorMarker(1,0,RED)`,
`createDirectionMarker(1,1,UP)` in that row-major order with no request for
cell (0, 0); and in general a "SPACE" cell contributes nothing — processing
continues with the next cell and no request is emitted for it. -/
theorem logo_demo_sequence :
    (∀ cid : String,
      createCrossmintLogo
        (.response 200 (some (.obj [("goal",
          encodeGrid [["SPACE", "POLYANET"], ["RED_SOLOON", "UP_COMETH"]])])))
        cid =
      .ok [polyanetRequest cid 0 1, soloonRequest cid 1 0 "red",
           comethRequest cid 1 1 "up"]) ∧
    (∀ (cid : String) (i j : Nat) (rest : List JValue),
      buildCells cid i j (JValue.str "SPACE" :: rest) =
        buildCells cid i (j + 1) rest) :=
  ⟨fun _ => rfl, fun _ _ _ _ => rfl⟩

/-- C4 counterexample: completion-to-completion gaps are NOT bounded below by
the configured interval. With `d = 1`, a first call taking 5 time units and
an immediate second call taking 0, the two calls complete at the same
instant: the completion gap is 0 < 1. -/
theorem completion_gap_counterexample :
    ¬ List.Chain' (fun p q : ℚ × ℚ => p.2 + 1 ≤ q.2)
      (runCalls 1 0 0 [(0, 5), (0, 0)]) := by
  intro h
  have h1 : runCalls 1 0 0 [(0, 5), (0, 0)] = [(1, 6), (6, 6)] := by
    norm_num [runCalls, throttle]
  rw [h1, List.chain'_cons] at h
  have h2 := h.1
  norm_num at h2

/-- C4 (amended): the rate limiter guarantees at least `d` between
consecutive request ISSUE times — the recorded timestamp is taken after any
wait but before the transport call, so the enforced interval is
issue-to-issue, not completion-to-completion: each recorded timestamp
exceeds the previous one by at least `d`, hence consecutive issue times in
any synchronous run of calls are at least `d` apart. -/
theorem rate_limiter_gap_is_issue_to_issue :
    (∀ d last now : ℚ, last + d ≤ throttle d last now) ∧
    (∀ (d last t : ℚ) (calls : List (ℚ × ℚ)),
      List.Chain' (fun p q : ℚ × ℚ => p.1 + d ≤ q.1) (runCalls d last t calls)) := by
  refine ⟨throttle_ge, ?_⟩
  intro d last t calls
  induction calls generalizing last t with
  | nil => simp [runCalls]
  | cons c rest ih =>
    obtain ⟨a, r⟩ := c
    simp only [runCalls]
    rw [List.chain'_cons']
    refine ⟨?_, ih _ _⟩
    intro q hq
    exact runCalls_head_issue d (throttle d last (t + a))
      (throttle d last (t + a) + r) rest q (Option.mem_def.mp hq)

/-- C5 counterexample: a method name that is not an attribute of the
`requests` module makes `getattr(requests, method)` raise an uncaught
`AttributeError`, so `_handle_requests` does raise past its boundary for
some methods. -/
theorem handleRequests_unknown_method_raises :
    handleRequests (.connError "down") "c" "bogus" "polyanets" [] =
      .error (.attributeError "bogus") := rfl

/-- For a method that exists on the `requests` module, `_handle_requests`
always returns a value: `dispatchResult` of the transport outcome. -/
theorem handleRequests_ok (out : SendOutcome)
    (cid method endpoint : String) (fields : List (String × PVal))
    (h : method ∈ requestsMethods) :
    handleRequests out cid method endpoint fields = .ok (dispatchResult out) := by
  unfold handleRequests dispatchResult
  rw [if_pos h]
  cases out with
  | response status body =>
    dsimp only
    by_cases hs : 400 ≤ status
    · rw [if_pos hs, if_pos hs]
    · rw [if_neg hs, if_neg hs]
      cases body with
      | none => rfl
      | some v => cases v <;> rfl
  | connError m => rfl
  | timeoutErr m => rfl
  | otherError m => rfl

/-- C5 (amended): for every method that names a real `requests` function
(in particular the "get", "post" and "delete" the program uses), every
endpoint and every field mapping, `_handle_requests` never raises: every
HTTP error status, connection failure, timeout and other transport fault is
caught and converted to `None`, and a non-error response yields its decoded
JSON body. -/
theorem handleRequests_never_raises (out : SendOutcome)
    (cid method endpoint : String) (fields : List (String × PVal))
    (h : method ∈ requestsMethods) :
    handleRequests out cid method endpoint fields = .ok (dispatchResult out) :=
  handleRequests_ok out cid method endpoint fields h

/-- C5 witness: a connection failure on a "post" dispatch is absorbed and
yields `None`. -/
theorem handleRequests_never_raises_witness :
    ("post" ∈ requestsMethods) ∧
    handleRequests (.connError "down") "c" "post" "polyanets" [] = .ok none :=
  ⟨by decide,
   handleRequests_never_raises (.connError "down") "c" "post" "polyanets" []
     (by decide)⟩

/-- C9: creates are not idempotent and nothing deduplicates: a sequence of
`create_object` calls dispatches exactly one request per call, and the same
call issued twice dispatches the same request twice. -/
theorem createObject_no_dedup :
    (∀ (cid : String) (calls : List CreateCall),
      (performCreates cid calls).length = calls.length) ∧
    (∀ (cid : String) (c : CreateCall),
      performCreates cid [c, c] =
        [createObjectRequest cid c.objectType c.row c.column c.extra,
         createObjectRequest cid c.objectType c.row c.column c.extra]) :=
  ⟨fun _ calls => by simp [performCreates], fun _ _ => rfl⟩

/-- C3: when the builder meets the first label whose direction segment (for
a `*_COMETH` label) or color segment (for any other two-part label) is not a
recognized enum member — every earlier cell, in row-major order, carrying a
label the builder handles — it aborts the whole build at that cell: the
requests dispatched are exactly those of the strictly earlier cells, and the
result coincides with building the grid truncated just before the bad
label, so no cell at or after it contributes anything. -/
theorem build_aborts_at_first_bad_attribute (cid : String)
    (pre : List (List String)) (rowPre : List String) (bad : String)
    (rowPost : List String) (post : List (List String))
    (hpre : pre.all (fun r => r.all goodLabel) = true)
    (hrowPre : rowPre.all goodLabel = true)
    (hbad : isBadAttribute bad = true) :
    buildGrid cid (pre ++ (rowPre ++ bad :: rowPost) :: post) =
      .ok (gridRequests cid 0 pre ++ rowRequests cid pre.length 0 rowPre) ∧
    buildGrid cid (pre ++ (rowPre ++ bad :: rowPost) :: post) =
      buildGrid cid (pre ++ [rowPre]) := by
  have h1 : buildGrid cid (pre ++ (rowPre ++ bad :: rowPost) :: post) =
      .ok (gridRequests cid 0 pre ++ rowRequests cid pre.length 0 rowPre) := by
    unfold buildGrid
    have h := buildRows_abort cid bad hbad rowPre rowPost hrowPre post pre 0 hpre
    simpa using h
  refine ⟨h1, ?_⟩
  rw [h1]
  have hval : (pre ++ [rowPre]).all (fun r => r.all goodLabel) = true := by
    rw [List.all_append]
    simp [hpre, hrowPre]
  unfold buildGrid
  rw [buildRows_good cid (pre ++ [rowPre]) 0 hval]
  rw [gridRequests_append cid pre [rowPre] 0]
  simp [gridRequests]

/-- C3 witness: with "PURPLE_SOLOON" at (0, 0) and "BOGUS_COMETH" at (0, 1),
the soloon at (0, 0) is created and nothing after — not the rest of the
row, not the following row. -/
theorem build_aborts_witness :
    buildGrid "c" [["PURPLE_SOLOON", "BOGUS_COMETH", "POLYANET"], ["POLYANET"]] =
      .ok [soloonRequest "c" 0 0 "purple"] := by
  have h := (build_aborts_at_first_bad_attribute "c" [] ["PURPLE_SOLOON"]
    "BOGUS_COMETH" ["POLYANET"] [["POLYANET"]] (by decide) (by decide)
    (by decide)).2
  exact h.trans rfl

/-- C8: an individual transport or API failure never stops the run —
`create_object` returns normally for every transport outcome — and on a
goal grid free of unrecognized labels the builder completes the full
row-major traversal, dispatching exactly one request per non-"SPACE"
cell. -/
theorem build_completes_despite_failures :
    (∀ (out : SendOutcome) (cid objectType : String) (row column : Int)
        (extra : List (String × PVal)),
      createObjectResult out cid objectType row column extra = .ok ()) ∧
    (∀ (cid : String) (grid : List (List String)),
      grid.all (fun r => r.all goodLabel) = true →
      buildGrid cid grid = .ok (gridRequests cid 0 grid) ∧
      (gridRequests cid 0 grid).length = nonSpaceCount grid) := by
  constructor
  · intro out cid objectType row column extra
    unfold createObjectResult
    rw [handleRequests_ok out cid "post" objectType _ (by decide)]
  · intro cid grid hval
    exact ⟨buildRows_good cid grid 0 hval, gridRequests_length cid grid 0 hval⟩

/-- C8 witness: a timeout on one create is absorbed, and a concrete
mixed grid is traversed fully with one request per non-"SPACE" cell. -/
theorem build_completes_despite_failures_witness :
    createObjectResult (.timeoutErr "t") "c" "polyanets" 0 0 [] = .ok () ∧
    buildGrid "c" [["POLYANET", "SPACE"], ["UP_COMETH"]] =
      .ok (gridRequests "c" 0 [["POLYANET", "SPACE"], ["UP_COMETH"]]) ∧
    (gridRequests "c" 0 [["POLYANET", "SPACE"], ["UP_COMETH"]]).length =
      nonSpaceCount [["POLYANET", "SPACE"], ["UP_COMETH"]] :=
  ⟨build_completes_despite_failures.1 (.timeoutErr "t") "c" "polyanets" 0 0 [],
   (build_completes_despite_failures.2 "c" _ (by decide)).1,
   (build_completes_despite_failures.2 "c" _ (by decide)).2⟩

/-- C10: attribute recognition is case-sensitive, matching exactly the
upper-case enum member names: every direction the builder accepts is one of
UP/DOWN/RIGHT/LEFT and every color one of BLUE/RED/PURPLE/WHITE; any
attribute name that is not its own ASCII upper-casing is not a member, and
concretely "up_COMETH" and "Red_SOLOON" abort the build before any later
cell while their upper-case variants are accepted. -/
theorem attribute_names_case_sensitive :
    (∀ s d, classifyLabel s = .cometh d → d ∈ comethDirectionNames) ∧
    (∀ s c, classifyLabel s = .soloon c → c ∈ soloonColorNames) ∧
    (∀ a, asciiUpper a ≠ a →
      a ∉ comethDirectionNames ∧ a ∉ soloonColorNames) ∧
    buildGrid "c" [["up_COMETH", "POLYANET"]] = .ok [] ∧
    buildGrid "c" [["Red_SOLOON", "POLYANET"]] = .ok [] ∧
    buildGrid "c" [["UP_COMETH"]] = .ok [comethRequest "c" 0 0 "up"] ∧
    buildGrid "c" [["RED_SOLOON"]] = .ok [soloonRequest "c" 0 0 "red"] := by
  refine ⟨classifyLabel_cometh_mem, classifyLabel_soloon_mem, ?_, rfl, rfl,
    rfl, rfl⟩
  intro a ha
  exact ⟨fun hm => ha (member_names_ascii_upper a (Or.inl hm)),
         fun hm => ha (member_names_ascii_upper a (Or.inr hm))⟩

/-- C10 witness: the exact member name "UP" is accepted while its
case-variants are not members. -/
theorem attribute_names_case_sensitive_witness :
    ("UP" ∈ comethDirectionNames) ∧ "up" ∉ comethDirectionNames ∧
    "Red" ∉ soloonColorNames :=
  ⟨attribute_names_case_sensitive.1 "UP_COMETH" "UP" (by decide),
   (attribute_names_case_sensitive.2.2.1 "up" (by decide)).1,
   (attribute_names_case_sensitive.2.2.1 "Red" (by decide)).2⟩

/-- C6 counterexample: a caller-supplied field named `candidateId` DOES
override the configured id — later entries of the Python dict display
`{"candidateId": self.candidate_id, **kwards}` win — so the candidate id is
not unoverridable. -/
theorem candidate_id_overridable :
    (buildPayload "me" [("candidateId", PVal.s "evil")]).lookup "candidateId" =
      some (PVal.s "evil") ∧
    (buildPayload "me" [("candidateId", PVal.s "evil")]).lookup "candidateId" ≠
      some (PVal.s "me") := by
  decide

/-- C6 (amended): the request body is the caller-supplied fields plus a
`candidateId` entry: the key is present in every request, and as long as the
caller does not itself supply a `candidateId` field its value is the
configured candidate id, the body being exactly the `candidateId` binding
followed by the caller's fields; a caller-supplied `candidateId` field,
however, overrides the configured value. -/
theorem payload_carries_candidate_id (cid : String)
    (fields : List (String × PVal)) :
    "candidateId" ∈ (buildPayload cid fields).map Prod.fst ∧
    ("candidateId" ∉ fields.map Prod.fst →
      (buildPayload cid fields).lookup "candidateId" = some (PVal.s cid)) ∧
    ((fields.map Prod.fst).Nodup → "candidateId" ∉ fields.map Prod.fst →
      buildPayload cid fields = ("candidateId", PVal.s cid) :: fields) := by
  refine ⟨?_, ?_, ?_⟩
  · exact foldl_dictInsert_keys "candidateId" fields
      [("candidateId", PVal.s cid)] (by simp)
  · exact fun h => candidateId_lookup_default cid fields h
  · intro hnd hmem
    unfold buildPayload
    rw [foldl_dictInsert_disjoint fields [("candidateId", PVal.s cid)] hnd ?_]
    · rfl
    · intro a ha hin
      simp only [List.map_cons, List.map_nil, List.mem_singleton] at hin
      subst hin
      exact hmem ha

/-- C6 witness: with the ordinary fields of a create call, the payload is the
candidate id binding followed by the caller's fields. -/
theorem payload_carries_candidate_id_witness :
    ("candidateId" ∈ (buildPayload "me" [("row", PVal.n 1)]).map Prod.fst) ∧
    (buildPayload "me" [("row", PVal.n 1)]).lookup "candidateId" =
      some (PVal.s "me") ∧
    buildPayload "me" [("row", PVal.n 1)] =
      [("candidateId", PVal.s "me"), ("row", PVal.n 1)] :=
  ⟨(payload_carries_candidate_id "me" [("row", PVal.n 1)]).1,
   (payload_carries_candidate_id "me" [("row", PVal.n 1)]).2.1 (by decide),
   (payload_carries_candidate_id "me" [("row", PVal.n 1)]).2.2 (by decide)
     (by decide)⟩

/-- C7 counterexample: a fetch that yields a dict without the expected
"goal" key is not a well-formed goal grid, yet the build does not abort
silently — `response["goal"]` raises an uncaught `KeyError`. -/
theorem logo_raises_on_missing_goal_key :
    createCrossmintLogo (.response 200 (some (.obj []))) "c" =
      .error (.keyError "goal") := rfl

/-- C7 (amended): whenever the fetch hands the builder anything that is not
a dict — `None` after any logged transport or API failure, or any non-object
JSON body — the build aborts silently: zero creation requests and no
exception. A dict lacking the "goal" structure, by contrast, raises. -/
theorem logo_silent_on_non_dict (out : SendOutcome) (cid : String)
    (r : Option JValue)
    (hr : handleRequests out cid "get" ("map/" ++ cid ++ "/goal") [] = .ok r)
    (hnd : ∀ kvs, r ≠ some (JValue.obj kvs)) :
    createCrossmintLogo out cid = .ok [] := by
  unfold createCrossmintLogo
  rw [hr]
  cases r with
  | none => rfl
  | some v =>
    cases v with
    | obj kvs => exact absurd rfl (hnd kvs)
    | null => rfl
    | jbool b => rfl
    | num n => rfl
    | str s => rfl
    | arr xs => rfl

/-- C7 witness: after a timed-out fetch the dispatcher returns `None` and
the build places nothing and raises nothing. -/
theorem logo_silent_on_non_dict_witness :
    createCrossmintLogo (.timeoutErr "t") "c" = .ok [] :=
  logo_silent_on_non_dict (.timeoutErr "t") "c" none rfl
    (fun _ h => Option.noConfusion h)

end Megaverse
